import Mathlib

/-!
Verification of the risk-prediction and retrieval pipeline of the
Kanini-Hackathon repository, as a shallow embedding in Lean 4.

Each definition is translated from one Python function of the repository
(file and function named in its doc comment).  Machine integers are
modelled as `Int` / `Nat`; Python floats appearing in the pipeline carry
exact decimal constants and are modelled as `ℚ`; a Python call that can
raise is modelled as `Except String α`; external collaborators (the
embedding model, the LLM, joblib, FAISS) are parameters of the embedding.
-/

namespace KaniniSpec

/-! ### Chunking — `backend/rag_database.py`, `RAGPipeline._chunk_text`

The pipeline is constructed with `chunk_size = 500`, `chunk_overlap = 50`.
The source is the loop

  chunks = []; start = 0
  while start < len(text):
      end = min(start + self.chunk_size, len(text))
      chunks.append(text[start:end])
      start = end - self.chunk_overlap
  return chunks

`start` is a Python `int` (it can go negative when `len(text) < overlap`),
so it is modelled as `Int`.  The while loop is modelled with explicit
fuel: `chunkAux ... fuel` returns `some chunks` when the loop exits
within `fuel` iterations and `none` when the fuel is exhausted, so that
`(∀ fuel, ... = none)` expresses non-termination of the source loop. -/

/-- Effective index of a Python slice bound `i` on a sequence of length
`len`: negative indices count from the end and both directions clamp. -/
def pySliceIdx (len i : Int) : Int :=
  if i < 0 then max (len + i) 0 else min i len

/-- Python slice `l[a:b]` (step 1) on a list of characters. -/
def pySlice (l : List Char) (a b : Int) : List Char :=
  let n : Int := l.length
  let a0 := (pySliceIdx n a).toNat
  let b0 := (pySliceIdx n b).toNat
  (l.take b0).drop a0

/-- One-loop body of `RAGPipeline._chunk_text`, with fuel.  `start` and the
accumulated `chunks` are the loop state. -/
def chunkAux (size overlap : Int) (text : List Char) :
    Nat → Int → List (List Char) → Option (List (List Char))
  | 0, _, _ => none
  | Nat.succ fuel, start, acc =>
    if start < (text.length : Int) then
      let e := min (start + size) (text.length : Int)
      chunkAux size overlap text fuel (e - overlap) (acc ++ [pySlice text start e])
    else
      some acc

/-- `RAGPipeline._chunk_text(text)` with the pipeline's parameters
`chunk_size = 500`, `chunk_overlap = 50`, run with `fuel` loop iterations. -/
def chunkText (text : List Char) (fuel : Nat) : Option (List (List Char)) :=
  chunkAux 500 50 text fuel 0 []

/-- Reassembly prescribed by the spec (§8): concatenate the chunks after
removing the `overlap`-length prefix of every chunk but the first. -/
def reassembleChunks (overlap : Nat) : List (List Char) → List Char
  | [] => []
  | c :: rest => c ++ (rest.map (List.drop overlap)).flatten

/-! ### Vector database — `backend/rag_database.py`, class `VectorDatabase`

Embeddings are finite rational vectors (`List ℚ`).  The embedding engine
(`embedding_engine.py`, `MultilingualEmbeddingEngine.embed_text`) is an
external model; it is a parameter `embed : String → List ℚ` of every
operation (it is deterministic and total in the source: the hash-based
fallback guarantees `embed_text` never raises and maps equal texts to
equal vectors).  The FAISS `IndexFlatL2` collaborator reports, for each
stored vector, its squared L2 distance to the query, in ascending order;
it is modelled by sorting the list of squared distances `sqDist`. -/

/-- Dot product of two rational vectors (`np.dot`). -/
def dot (v w : List ℚ) : ℚ :=
  ((v.zip w).map (fun p => p.1 * p.2)).sum

/-- Squared L2 distance between two rational vectors (the quantity
reported by `faiss.IndexFlatL2.search`). -/
def sqDist (v w : List ℚ) : ℚ :=
  ((v.zip w).map (fun p => (p.1 - p.2) ^ 2)).sum

/-- Metadata stored per document by `VectorDatabase.add_document`
(timestamp and the open metadata map are omitted: no claim mentions
them). -/
structure DocMeta where
  id : Nat
  docType : String
  source : String
deriving DecidableEq, Repr

/-- One search hit as built by `VectorDatabase.search` /
`VectorDatabase._simple_search`: `{'id', 'full_text', 'similarity'}`
(the 500-character excerpt field is the `pySlice` of `fullText` and is
omitted). -/
structure SearchResult where
  id : Nat
  fullText : String
  similarity : ℚ
deriving DecidableEq, Repr

/-- State of `VectorDatabase`: parallel lists of documents, embeddings
and metadata; `useFaiss` records whether the FAISS import succeeded. -/
structure VectorDB where
  useFaiss : Bool
  documents : List String
  embeddings : List (List ℚ)
  metadata : List DocMeta
deriving DecidableEq, Repr

/-- `VectorDatabase.__init__` state (empty index). -/
def VectorDB.empty (useFaiss : Bool) : VectorDB :=
  ⟨useFaiss, [], [], []⟩

/-- `VectorDatabase.add_document(text, doc_type, source)`: embed, append
document, embedding and metadata with `id = len(documents)`, and rebuild
the index (the rebuilt index is exactly the `embeddings` list, so it
needs no separate field).  The surrounding try/except only fires when
the embedding engine raises, which `embed_text` never does. -/
def addDocument (embed : String → List ℚ) (db : VectorDB)
    (text : String) (docType : String) (source : String) : VectorDB :=
  let e := embed text
  let docId := db.documents.length
  { db with
      documents := db.documents ++ [text]
      embeddings := db.embeddings ++ [e]
      metadata := db.metadata ++ [⟨docId, docType, source⟩] }

/-- Document-type filter check: `doc_type_filter and meta['type'] != doc_type_filter`
skips a hit; `none` models a falsy (absent) filter. -/
def matchesFilter (filter : Option String) (docType : String) : Bool :=
  match filter with
  | none => true
  | some f => docType = f

/-- Ascending order on index/distance pairs (FAISS returns hits by
ascending distance). -/
def distLE (a b : Nat × ℚ) : Prop := a.2 ≤ b.2

instance : DecidableRel distLE := fun a b => inferInstanceAs (Decidable (a.2 ≤ b.2))

instance : IsTotal (Nat × ℚ) distLE := ⟨fun a b => le_total a.2 b.2⟩

instance : IsTrans (Nat × ℚ) distLE := ⟨fun _ _ _ h h' => le_trans h h'⟩

/-- Descending order on index/score pairs
(`scores.sort(key=lambda x: x[1], reverse=True)`). -/
def scoreGE (a b : Nat × ℚ) : Prop := b.2 ≤ a.2

instance : DecidableRel scoreGE := fun a b => inferInstanceAs (Decidable (b.2 ≤ a.2))

instance : IsTotal (Nat × ℚ) scoreGE := ⟨fun a b => le_total b.2 a.2⟩

instance : IsTrans (Nat × ℚ) scoreGE := ⟨fun _ _ _ h h' => le_trans h' h⟩

/-- FAISS branch of `VectorDatabase.search`: the index reports the
`min(top_k * 2, len(embeddings))` nearest stored vectors by ascending
squared L2 distance; each surviving hit gets similarity
`1 / (1 + distance)`; finally `results[:top_k]`. -/
def searchFaiss (db : VectorDB) (q : List ℚ) (topK : Nat)
    (filter : Option String) : List SearchResult :=
  let pairs := db.embeddings.enum.map (fun p => (p.1, sqDist q p.2))
  let sorted := List.insertionSort distLE pairs
  let selected := sorted.take (min (topK * 2) db.embeddings.length)
  let results := selected.filterMap (fun p =>
    match db.metadata[p.1]? with
    | some m =>
        if matchesFilter filter m.docType then
          some ⟨p.1, (db.documents[p.1]?).getD "", 1 / (1 + p.2)⟩
        else none
    | none => none)
  results.take topK

/-- `VectorDatabase._simple_search` (fallback branch): score every
stored vector by `np.dot(query_embedding, doc_emb)`, sort descending,
keep `top_k`, and report similarity `max(0, score)`. -/
def simpleSearch (db : VectorDB) (q : List ℚ) (topK : Nat)
    (filter : Option String) : List SearchResult :=
  let scores := db.embeddings.enum.filterMap (fun p =>
    match db.metadata[p.1]? with
    | some m =>
        if matchesFilter filter m.docType then some (p.1, dot q p.2) else none
    | none => none)
  let sorted := List.insertionSort scoreGE scores
  (sorted.take topK).map (fun p =>
    ⟨p.1, (db.documents[p.1]?).getD "", max 0 p.2⟩)

/-- `VectorDatabase.search(query, top_k, doc_type_filter)`: embed the
query and dispatch on the FAISS flag; an empty index returns `[]`. -/
def search (embed : String → List ℚ) (db : VectorDB) (query : String)
    (topK : Nat) (filter : Option String) : List SearchResult :=
  if db.embeddings.isEmpty then []
  else if db.useFaiss then searchFaiss db (embed query) topK filter
  else simpleSearch db (embed query) topK filter

/-- Well-formedness maintained by `VectorDatabase`: the three lists are
parallel and every embedding is the engine's embedding of its document. -/
def WellFormed (embed : String → List ℚ) (db : VectorDB) : Prop :=
  db.embeddings = db.documents.map embed ∧
  db.metadata.length = db.documents.length

/-- The similarity score `VectorDatabase.search` reports for a stored
embedding `e` against query embedding `q`: `1 / (1 + distance)` in the
FAISS branch, `max(0, np.dot(q, e))` in the fallback branch. -/
def reportedSimilarity (db : VectorDB) (q e : List ℚ) : ℚ :=
  if db.useFaiss then 1 / (1 + sqDist q e) else max 0 (dot q e)

/-- Concrete embedding engine used as a witness for the vector-database
theorems: three unit vectors, one per document text. -/
def embedW : String → List ℚ := fun s =>
  if s = "a" then [1, 0] else if s = "b" then [0, 1] else [3/5, 4/5]

/-- Concrete two-document database used as a witness. -/
def dbW : VectorDB :=
  addDocument embedW (addDocument embedW (VectorDB.empty true) "a" "medical" "") "b" "medical" ""

/-- Concrete embedding engine for the similarity-score counterexample:
`"d"` embeds to `[0, 1]`, every query to `[1, 0]` (orthogonal unit
vectors). -/
def embedX : String → List ℚ := fun s => if s = "d" then [0, 1] else [1, 0]

/-- One-document database without FAISS (fallback search branch). -/
def dbX : VectorDB := ⟨false, ["d"], [[0, 1]], [⟨0, "medical", ""⟩]⟩

/-! ### Translation — `backend/apps/accessibility/services/translation_service.py`
and `backend/ai_engine/src/translation_service.py`

Both files define a class `MultilingualTranslator` with a `translate`
method, but with different signatures and failure behaviour; both are
embedded.  The seq2seq model backend is an oracle
`String → String → String → Except String String` (text, source,
target); a `.error` result models the Python call raising. -/

/-- `MultilingualTranslator.SUPPORTED_LANGUAGES` (accessibility
service): the key set of the class dictionary. -/
def SUPPORTED_LANGUAGES : List String :=
  ["en", "hi", "ta", "te", "kn", "ml", "mr", "gu", "bn", "pa", "ur", "or", "as"]

/-- `medical_vocab[('en', 'hi')]` of `_fallback_translate`, in dict
insertion order. -/
def enHiVocab : List (String × String) :=
  [("patient", "रोगी"), ("blood", "रक्त"), ("heart", "दिल"),
   ("temperature", "तापमान"), ("fever", "बुखार"), ("doctor", "डॉक्टर"),
   ("hospital", "अस्पताल"), ("medication", "दवा")]

/-- `medical_vocab[('en', 'ta')]` of `_fallback_translate`. -/
def enTaVocab : List (String × String) :=
  [("patient", "நோயாளி"), ("blood", "இரத்தம்"), ("heart", "இதயம்"),
   ("temperature", "வெப்பநிலை"), ("fever", "காய்ச்சல்"), ("doctor", "மருத்துவர்"),
   ("hospital", "மருத்துவமனை"), ("medication", "மருந்து")]

/-- Python `str.replace`, one scan step per character of fuel: replace
every non-overlapping occurrence of `pat`, scanning left to right. -/
def replaceCharsAux (pat rep : List Char) : Nat → List Char → List Char
  | 0, s => s
  | Nat.succ n, s =>
    match s with
    | [] => []
    | c :: rest =>
        if pat.isPrefixOf s then rep ++ replaceCharsAux pat rep n (s.drop pat.length)
        else c :: replaceCharsAux pat rep n rest

/-- Python `s.replace(pat, rep)` for the non-empty patterns used by the
vocabulary (the empty-pattern case never occurs there). -/
def pyReplace (s pat rep : String) : String :=
  if pat.toList.isEmpty then s
  else ⟨replaceCharsAux pat.toList rep.toList s.toList.length s.toList⟩

/-- Python `s.lower()` (ASCII as used by the language names here). -/
def pyToLower (s : String) : String :=
  ⟨s.toList.map Char.toLower⟩

/-- The `result = result.replace(eng_word, trans_word)` loop of
`_fallback_translate`. -/
def applyVocab (vocab : List (String × String)) (text : String) : String :=
  vocab.foldl (fun acc p => pyReplace acc p.1 p.2) text

/-- `MultilingualTranslator._fallback_translate` (accessibility
service): vocabulary substitution for the `(en, hi)` and `(en, ta)`
pairs, otherwise the original text. -/
def fallbackTranslate (text srcLang tgtLang : String) : String :=
  if srcLang = "en" ∧ tgtLang = "hi" then applyVocab enHiVocab text
  else if srcLang = "en" ∧ tgtLang = "ta" then applyVocab enTaVocab text
  else text

/-- Accessibility-service translator state: whether `_init_model` left
`self.model` and `self.tokenizer` set (both are set or cleared
together). -/
structure AccTranslator where
  modelLoaded : Bool
deriving DecidableEq, Repr

/-- `MultilingualTranslator.translate` (accessibility service): equal
languages return the text; an unsupported source or target returns the
text; otherwise the IndicTrans2 path runs when the model is loaded
(`_translate_indic` returns the text on any internal exception, as does
the enclosing try/except) and `_fallback_translate` runs when it is
not.  Total: no path raises. -/
def accTranslate (st : AccTranslator)
    (indicModel : String → String → String → Except String String)
    (text srcLang tgtLang : String) : String :=
  if srcLang = tgtLang then text
  else if srcLang ∉ SUPPORTED_LANGUAGES then text
  else if tgtLang ∉ SUPPORTED_LANGUAGES then text
  else if st.modelLoaded then
    match indicModel text srcLang tgtLang with
    | .ok t => t
    | .error _ => text
  else fallbackTranslate text srcLang tgtLang

/-- `LANGUAGE_CODES` of `ai_engine/src/translation_service.py`. -/
def LANGUAGE_CODES : List (String × String) :=
  [("hindi", "hin_Deva"), ("tamil", "tam_Taml"), ("telugu", "tel_Telu"),
   ("kannada", "kan_Knda"), ("malayalam", "mal_Mlym"), ("marathi", "mar_Deva"),
   ("gujarati", "guj_Gujr"), ("bengali", "ben_Beng"), ("punjabi", "pan_Guru"),
   ("urdu", "urd_Arab"), ("english", "eng_Latn"), ("odia", "ory_Orya"),
   ("assamese", "asm_Beng"), ("kashmiri", "kas_Arab")]

/-- `LANGUAGE_CODES.get(lang.lower())`. -/
def aiLangCode (lang : String) : Option String :=
  LANGUAGE_CODES.lookup (pyToLower lang)

/-- ai_engine translator state: `self.initialized`, plus whether a call
to `initialize()` would succeed in this environment. -/
structure AiTranslator where
  initialized : Bool
  initSucceeds : Bool
deriving DecidableEq, Repr

/-- `MultilingualTranslator.translate` (ai_engine service): returns
`None` when lazy initialization fails, `None` when either language code
is missing from `LANGUAGE_CODES`, the text itself when the lowered
language codes coincide, and otherwise the model generation (whose
exception is caught and converted to `None`). -/
def aiTranslate (st : AiTranslator)
    (genModel : String → String → String → Except String String)
    (text srcLang tgtLang : String) : Option String :=
  if ¬ st.initialized ∧ ¬ st.initSucceeds then none
  else
    match aiLangCode srcLang, aiLangCode tgtLang with
    | some _, some _ =>
        if pyToLower srcLang = pyToLower tgtLang then some text
        else
          match genModel text srcLang tgtLang with
          | .ok t => some t
          | .error _ => none
    | _, _ => none

/-- A model backend that always raises (model unavailable / network
down); used to instantiate witnesses. -/
def genFail : String → String → String → Except String String :=
  fun _ _ _ => .error "model unavailable"

/-! ### Risk prediction — `backend/xgboost_predictor.py`,
class `XGBoostMedicalPredictor`

Patient data is a numeric dictionary (the pipeline feeds it the numeric
vitals built by `_prepare_patient_data`), modelled as an association
list `String ↦ ℚ`; a missing key behaves like `dict.get(key, default)`
(the `if value is None` guard of `prepare_features` collapses onto the
same default in this numeric model).  The trained XGBoost model is an
oracle `List ℚ → Except String ℚ`; `feature_importances_` is an oracle
producing the top factors (`get_feature_importance` catches its own
errors and returns an empty list). -/

/-- `patient_data.get(key, dflt)` on a numeric dictionary. -/
def pdGet (pd : List (String × ℚ)) (key : String) (dflt : ℚ) : ℚ :=
  (pd.lookup key).getD dflt

/-- `self.feature_set` of `XGBoostMedicalPredictor.__init__`. -/
def feature_set : List String :=
  ["age", "heart_rate", "systolic_bp", "diastolic_bp",
   "temperature", "spo2", "respiratory_rate", "glucose",
   "creatinine", "hemoglobin", "platelet_count", "white_blood_cells",
   "comorbidity_count", "medication_count", "previous_hospitalizations",
   "days_since_last_visit", "abnormal_lab_count"]

/-- `XGBoostMedicalPredictor.prepare_features`. -/
def prepare_features (pd : List (String × ℚ)) : List ℚ :=
  feature_set.map (fun f => pdGet pd f 0)

/-- One entry of `top_risk_factors`: `{'feature': ..., 'importance': ...}`. -/
structure RiskFactor where
  feature : String
  importance : ℚ
deriving DecidableEq, Repr

/-- The dictionary returned by `predict_risk` / `_fallback_risk`
(`risk_percentage` is a formatted rendering of `risk_score` and is
omitted; `fallbackMethod` records the presence of the
`'method': 'fallback_rule_based'` key). -/
structure RiskPred where
  riskScore : ℚ
  riskLevel : String
  topRiskFactors : List RiskFactor
  confidence : ℚ
  fallbackMethod : Bool
deriving DecidableEq, Repr

/-- `np.clip(x, lo, hi)`. -/
def npClip (x lo hi : ℚ) : ℚ :=
  max lo (min x hi)

/-- `XGBoostMedicalPredictor._classify_risk` with the fixed thresholds
`low = 0.25`, `medium = 0.50`, `high = 0.75`. -/
def classify_risk (score : ℚ) : String :=
  if score < 0.25 then "LOW"
  else if score < 0.50 then "MEDIUM"
  else if score < 0.75 then "HIGH"
  else "CRITICAL"

/-- `XGBoostMedicalPredictor.get_feature_importance`: internal
try/except — an oracle failure yields `{'top_factors': []}`. -/
def get_feature_importance (importOracle : Except String (List RiskFactor)) :
    List RiskFactor :=
  match importOracle with
  | .ok l => l
  | .error _ => []

/-- `XGBoostMedicalPredictor._fallback_risk`: rule-based scoring. -/
def fallback_risk (pd : List (String × ℚ)) : RiskPred :=
  let age := pdGet pd "age" 0
  let hr := pdGet pd "heart_rate" 0
  let spo2 := pdGet pd "spo2" 100
  let temp := pdGet pd "temperature" 37
  let comorbidities := pdGet pd "comorbidity_count" 0
  let score0 : ℚ :=
    (if 65 < age then 0.15 else 0) +
    (if 100 < hr ∨ hr < 60 then 0.15 else 0) +
    (if spo2 < 95 then 0.20 else 0) +
    (if 38 < temp ∨ temp < 36 then 0.10 else 0) +
    (if 2 < comorbidities then 0.15 else 0)
  let factors : List String :=
    (if 65 < age then ["advanced_age"] else []) ++
    (if 100 < hr ∨ hr < 60 then ["abnormal_heart_rate"] else []) ++
    (if spo2 < 95 then ["low_oxygen_saturation"] else []) ++
    (if 38 < temp ∨ temp < 36 then ["fever_or_hypothermia"] else []) ++
    (if 2 < comorbidities then ["multiple_comorbidities"] else [])
  let score := npClip score0 0 1
  { riskScore := score
    riskLevel := classify_risk score
    topRiskFactors := factors.map (fun f => ⟨f, 0.2⟩)
    confidence := if 0.5 < score then score else 1 - score
    fallbackMethod := true }

/-- `XGBoostMedicalPredictor.predict_risk`: try the model path, fall
back to `_fallback_risk` on any exception (in particular a not-fitted
model). -/
def predict_risk (modelPredict : List ℚ → Except String ℚ)
    (importOracle : Except String (List RiskFactor))
    (pd : List (String × ℚ)) : RiskPred :=
  match modelPredict (prepare_features pd) with
  | .ok raw =>
      let score := npClip raw 0 1
      { riskScore := score
        riskLevel := classify_risk score
        topRiskFactors := get_feature_importance importOracle
        confidence := if 0.5 < score then score else 1 - score
        fallbackMethod := false }
  | .error _ => fallback_risk pd

/-! ### Orchestration — `backend/unified_ai_pipeline.py`,
`UnifiedMedicalAIPipeline.process_document`

The collaborator stages (translator, RAG ingestion, Mistral extraction,
XGBoost prediction, Mistral explanation) are oracles returning
`Except String α`: an `.error` models the Python call raising.  The
entire body of `process_document` is wrapped in one try/except that
converts any exception into `{'status': 'error', 'error': str(e),
'patient_id': patient_id}`. -/

/-- The structured-extraction payload of `extract_from_text` (an open
JSON-like dictionary; its fields only flow into `_prepare_patient_data`,
so it is modelled as an opaque key-value list). -/
abbrev Extracted := List (String × String)

/-- The collaborator stages invoked by `process_document`, as oracles. -/
structure StageOracles where
  translate : String → String → String → Except String String
  addEhrDocument : String → String → String → Except String Nat
  extractFromText : String → String → Except String Extracted
  prepare : Extracted → List (String × ℚ)
  predictRiskStage : List (String × ℚ) → Except String RiskPred
  generateExplanation : ℚ → List String → List (String × ℚ) → String → Except String String

/-- The response dictionary of `process_document`: either the
`status: success` shape with all stage outputs, or the
`status: error` shape carrying only the message and patient id. -/
inductive PDResponse where
  | success (docType patientId : String) (chunksProcessed : Nat)
      (extractedData : Extracted) (riskPrediction : RiskPred)
      (explanation : String) (language : String)
  | error (message : String) (patientId : String)
deriving DecidableEq, Repr

/-- The risk prediction carried by a response, when any. -/
def PDResponse.riskPredictionField : PDResponse → Option RiskPred
  | .success _ _ _ _ rp _ _ => some rp
  | .error _ _ => none

/-- The try-block of `UnifiedMedicalAIPipeline.process_document`,
propagating the first stage exception. -/
def processDocumentE (o : StageOracles)
    (documentText docType patientId language : String) :
    Except String PDResponse := do
  let workText ←
    if language ≠ "en" then o.translate documentText language "en"
    else pure documentText
  let chunkCount ← o.addEhrDocument workText patientId docType
  let extracted ← o.extractFromText workText language
  let patientData := o.prepare extracted
  let riskPrediction ← o.predictRiskStage patientData
  let explanation0 ← o.generateExplanation riskPrediction.riskScore
    (riskPrediction.topRiskFactors.map (fun f => f.feature)) patientData language
  let explanation ←
    if language ≠ "en" then o.translate explanation0 "en" language
    else pure explanation0
  pure (.success docType patientId chunkCount extracted riskPrediction
    explanation language)

/-- `UnifiedMedicalAIPipeline.process_document`: the enclosing
try/except converts any stage exception into the bare error response. -/
def processDocument (o : StageOracles)
    (documentText docType patientId language : String) : PDResponse :=
  match processDocumentE o documentText docType patientId language with
  | .ok r => r
  | .error e => .error e patientId

/-- Concrete stage oracles in which every stage up to and including the
risk prediction succeeds and the narrative-explanation stage raises. -/
def oraclesC3 : StageOracles :=
  { translate := fun t _ _ => .ok t
    addEhrDocument := fun _ _ _ => .ok 3
    extractFromText := fun _ _ => .ok [("note", "chest pain")]
    prepare := fun _ => [("age", 70)]
    predictRiskStage := fun _ => .ok ⟨0.8, "CRITICAL", [⟨"age", 0.3⟩], 0.8, false⟩
    generateExplanation := fun _ _ _ _ => .error "LLM unavailable" }

/-- A model oracle that always raises (untrained default model). -/
def failPredict : List ℚ → Except String ℚ := fun _ => .error "model not fitted"

/-- A feature-importance oracle that raises. -/
def noImport : Except String (List RiskFactor) := .error "no feature importances"

/-- A concrete partially-populated patient dictionary. -/
def pdElderly : List (String × ℚ) := [("age", 70), ("spo2", 90)]

/-! ### Explainability — `backend/ai_engine/src/explainability.py`,
class `TriageExplainer`

The joblib model file, SHAP explainer construction and SHAP evaluation
are external collaborators, modelled as an environment of oracles.  The
loaded model and constructed explainer are opaque (`Unit`): only their
presence matters to the claims. -/

/-- The return shape of `explainer.shap_values(X)`: a list of per-class
matrices for multiclass models or a single matrix for binary ones. -/
inductive ShapValues where
  | multi (classes : List (List (List ℚ)))
  | single (matrix : List (List ℚ))

/-- `np.abs` on a row. -/
def absRow (r : List ℚ) : List ℚ :=
  r.map (fun x => |x|)

/-- Elementwise vector addition (`np.sum(..., axis=0)` accumulation). -/
def addVec (v w : List ℚ) : List ℚ :=
  (v.zip w).map (fun p => p.1 + p.2)

/-- Elementwise matrix addition. -/
def matAdd (a b : List (List ℚ)) : List (List ℚ) :=
  (a.zip b).map (fun p => addVec p.1 p.2)

/-- The `mean_abs_shap` aggregation of `explain_prediction`: multiclass
sums the absolute per-class matrices and takes row 0; binary takes the
absolute of row 0. -/
def meanAbsShap : ShapValues → List ℚ
  | .multi cs =>
      match cs.map (fun m => m.map absRow) with
      | [] => []
      | c :: rest => (rest.foldl matAdd c).headD []
  | .single m => absRow (m.headD [])

/-- `np.argsort(v)[::-1][:top_k]`: indices of the `top_k` largest
entries in descending order (`np.argsort` uses an unstable sort, so tie
order is unspecified there; the model fixes it by stable insertion
order). -/
def topKIndices (v : List ℚ) (k : Nat) : List Nat :=
  ((List.insertionSort scoreGE v.enum).take k).map Prod.fst

/-- `TriageExplainer` instance state. -/
structure TriageExplainerState where
  riskModel : Option Unit
  explainer : Option Unit
  featureNames : Option (List String)
deriving DecidableEq, Repr

/-- The environment `load_explainer` probes: file existence, joblib
loads, SHAP constructors. -/
structure ExplainerEnv where
  modelFileExists : Bool
  loadModel : Except String Unit
  hasGetBooster : Bool
  mkTreeExplainer : Except String Unit
  mkGenericExplainer : Except String Unit
  featureFileExists : Bool
  loadFeatureNames : Except String (List String)

/-- `TriageExplainer.load_explainer`: called only when
`self.risk_model is None`; loads the model and builds an explainer when
the model file exists, then loads the feature names when that file
exists.  No try/except: every oracle failure propagates. -/
def load_explainer (env : ExplainerEnv) (st : TriageExplainerState) :
    Except String TriageExplainerState := do
  if st.riskModel = none then
    let st1 ←
      if env.modelFileExists then do
        let m ← env.loadModel
        let ex ← if env.hasGetBooster then env.mkTreeExplainer
                 else env.mkGenericExplainer
        pure { st with riskModel := some m, explainer := some ex }
      else pure st
    if env.featureFileExists then do
      let fns ← env.loadFeatureNames
      pure { st1 with featureNames := some fns }
    else pure st1
  else pure st

/-- Body of `explain_prediction` after the explainer is known present:
`shap_values` failures are caught and give `{}` (here `none`); the
`top_features` entry is built only when `feature_names` is truthy and
matches the aggregate length. -/
def explainCore (shapOracle : List (List ℚ) → Except String ShapValues)
    (st : TriageExplainerState) (X : List (List ℚ)) (topK : Nat) :
    Except String (Option (List RiskFactor)) :=
  match shapOracle X with
  | .error _ => .ok none
  | .ok sv =>
      let m := meanAbsShap sv
      match st.featureNames with
      | some fns =>
          if fns ≠ [] ∧ fns.length = m.length then
            .ok (some ((topKIndices m topK).filterMap (fun i =>
              match fns[i]?, m[i]? with
              | some f, some v => some ⟨f, v⟩
              | _, _ => none)))
          else .ok none
      | none => .ok none

/-- `TriageExplainer.explain_prediction`: lazily calls
`load_explainer` (whose exceptions propagate — it is not inside the
try/except), returns `{}` when no explainer results, else evaluates
SHAP. -/
def explain_prediction (env : ExplainerEnv)
    (shapOracle : List (List ℚ) → Except String ShapValues)
    (st : TriageExplainerState) (X : List (List ℚ)) (topK : Nat) :
    Except String (Option (List RiskFactor)) :=
  if st.explainer = none then
    match load_explainer env st with
    | .error e => .error e
    | .ok st' =>
        if st'.explainer = none then .ok none
        else explainCore shapOracle st' X topK
  else explainCore shapOracle st X topK

/-- Fresh `TriageExplainer()` state. -/
def freshExplainer : TriageExplainerState := ⟨none, none, none⟩

/-- A state whose explainer is already constructed. -/
def loadedExplainer : TriageExplainerState := ⟨some (), some (), none⟩

/-- Environment in which the model file exists but `joblib.load`
raises. -/
def envC8 : ExplainerEnv :=
  { modelFileExists := true
    loadModel := .error "joblib load failed"
    hasGetBooster := true
    mkTreeExplainer := .ok ()
    mkGenericExplainer := .ok ()
    featureFileExists := false
    loadFeatureNames := .ok [] }

/-- Environment with no model artifacts on disk. -/
def envAbsent : ExplainerEnv :=
  { modelFileExists := false
    loadModel := .ok ()
    hasGetBooster := true
    mkTreeExplainer := .ok ()
    mkGenericExplainer := .ok ()
    featureFileExists := false
    loadFeatureNames := .ok [] }

/-- A SHAP evaluation that raises. -/
def shapFail : List (List ℚ) → Except String ShapValues :=
  fun _ => .error "shap error"

/-! ### Preprocessing — `backend/ai_engine/src/preprocessing.py`,
class `TriagePreprocessor`, and `backend/core/exceptions.py`

`TriagePreprocessor.__init__` sets `self.pipeline = None`; `transform`
is `return self.pipeline.transform(X)`, so before `fit` it dereferences
`None` and raises Python's `AttributeError`.  The exception kinds the
claim distinguishes are modelled as an enumeration; `configurationError`
stands for the `ConfigurationError` type the spec postulates (§7),
which does not occur anywhere in the codebase. -/

/-- Exception kinds distinguished by the claim. -/
inductive PyExcKind where
  | attributeError
  | configurationError
deriving DecidableEq, Repr

/-- `TriagePreprocessor` state: `None` before `fit`, a fitted
`ColumnTransformer` (an opaque row-to-vector function) after. -/
structure TriagePreprocessor where
  pipeline : Option (List (String × ℚ) → List ℚ)

/-- `TriagePreprocessor()` — unfitted. -/
def freshPreprocessor : TriagePreprocessor := ⟨none⟩

/-- `TriagePreprocessor.transform`: `self.pipeline.transform(X)`;
dereferencing `None` raises `AttributeError`. -/
def transform (p : TriagePreprocessor) (X : List (String × ℚ)) :
    Except PyExcKind (List ℚ) :=
  match p.pipeline with
  | none => .error .attributeError
  | some f => .ok (f X)

/-- The exception classes defined by `backend/core/exceptions.py`. -/
def coreExceptionClasses : List String :=
  ["PermissionDenied", "NotFound", "BadRequest"]

/-! ### Theorems on chunking -/

/-- Helper: whenever `overlap > 0` and the loop is entered with
`start < len(text)`, the loop condition holds again after every
iteration (`min (start+size) len - overlap ≤ len - overlap < len`),
so the loop never exits regardless of the fuel. -/
theorem chunkAux_eq_none (size overlap : Int) (text : List Char)
    (hov : 0 < overlap) :
    ∀ (fuel : Nat) (start : Int) (acc : List (List Char)),
      start < (text.length : Int) →
      chunkAux size overlap text fuel start acc = none := by
  intro fuel
  induction fuel with
  | zero => intro start acc _; rfl
  | succ n ih =>
    intro start acc hlt
    have hmin : min (start + size) ((text.length : Int)) ≤ (text.length : Int) :=
      min_le_right _ _
    have hnext : min (start + size) ((text.length : Int)) - overlap <
        (text.length : Int) := by omega
    simp only [chunkAux, if_pos hlt]
    exact ih _ _ hnext

/-- C1: the claim is that `_chunk_text` terminates on every non-empty
input and returns chunks of length at most `chunk_size`.  In fact, the
loop of `_chunk_text` never terminates on any non-empty text: once
`end = len(text)`, the next `start` is `len(text) - 50 < len(text)`, so
the loop condition stays true forever.  Formally: for every non-empty
text, the loop exits within no finite amount of fuel. -/
theorem chunkText_never_terminates (text : List Char)
    (hne : 0 < text.length) (fuel : Nat) :
    chunkText text fuel = none := by
  have h0 : (0 : Int) < (text.length : Int) := by exact_mod_cast hne
  exact chunkAux_eq_none 500 50 text (by norm_num) fuel 0 [] h0

/-- Witness for C1 at the concrete input `"aaaaaaaaaa"` (10 characters). -/
theorem chunkText_never_terminates_witness :
    chunkText (List.replicate 10 'a') 1000 = none :=
  chunkText_never_terminates (List.replicate 10 'a') (by simp) 1000

/-- C2: the claim is that concatenating the chunks of `_chunk_text`
(dropping the 50-character overlap prefix of every chunk but the first)
reconstructs the text.  Since `_chunk_text` never returns on a non-empty
text, there is no fuel under which the loop produces a chunk list at
all, hence none whose reassembly is the text: the round-trip fails on
the concrete 7-character input `"abcdefg"`. -/
theorem chunkText_roundtrip_fails :
    ¬ ∃ (fuel : Nat) (cs : List (List Char)),
        chunkText "abcdefg".toList fuel = some cs ∧
        reassembleChunks 50 cs = "abcdefg".toList := by
  rintro ⟨fuel, cs, hsome, -⟩
  have : chunkText "abcdefg".toList fuel = none :=
    chunkText_never_terminates _ (by decide) fuel
  rw [this] at hsome
  exact Option.noConfusion hsome

/-! ### Vector arithmetic lemmas -/

theorem sqDist_nonneg (v w : List ℚ) : 0 ≤ sqDist v w := by
  apply List.sum_nonneg
  intro x hx
  simp only [List.mem_map] at hx
  obtain ⟨p, -, rfl⟩ := hx
  positivity

theorem sqDist_self (v : List ℚ) : sqDist v v = 0 := by
  induction v with
  | nil => rfl
  | cons a t ih =>
    simp only [sqDist, List.zip_cons_cons, List.map_cons, List.sum_cons] at ih ⊢
    rw [ih]
    ring

theorem eq_of_sqDist_eq_zero :
    ∀ {v w : List ℚ}, v.length = w.length → sqDist v w = 0 → v = w := by
  intro v
  induction v with
  | nil =>
    intro w hlen _
    cases w with
    | nil => rfl
    | cons b u => simp at hlen
  | cons a t ih =>
    intro w hlen hzero
    cases w with
    | nil => simp at hlen
    | cons b u =>
      simp only [List.length_cons, Nat.succ_inj] at hlen
      simp only [sqDist, List.zip_cons_cons, List.map_cons, List.sum_cons] at hzero
      have h1 : (0:ℚ) ≤ (a - b) ^ 2 := by positivity
      have h2 : 0 ≤ sqDist t u := sqDist_nonneg t u
      have hsq : (a - b) ^ 2 = 0 := by
        have := sqDist_nonneg t u
        simp only [sqDist] at this
        linarith
      have hab : a = b := by
        have := pow_eq_zero_iff (n := 2) (by norm_num) |>.mp hsq
        linarith
      have htu : t = u := by
        apply ih hlen
        simp only [sqDist]
        linarith [hsq]
      rw [hab, htu]

theorem sqDist_polarization :
    ∀ {v w : List ℚ}, v.length = w.length →
      sqDist v w = dot v v - 2 * dot v w + dot w w := by
  intro v
  induction v with
  | nil =>
    intro w hlen
    cases w with
    | nil => simp [sqDist, dot]
    | cons b u => simp at hlen
  | cons a t ih =>
    intro w hlen
    cases w with
    | nil => simp at hlen
    | cons b u =>
      simp only [List.length_cons, Nat.succ_inj] at hlen
      simp only [sqDist, dot, List.zip_cons_cons, List.map_cons, List.sum_cons] at ih ⊢
      rw [ih hlen]
      ring

/-- Strict Cauchy-Schwarz consequence used for the fallback search
ranking: a stored embedding with the same self-dot as the query but a
different value has strictly smaller dot with the query. -/
theorem dot_lt_dot_self_of_ne {q e : List ℚ} (hlen : e.length = q.length)
    (hne : e ≠ q) (hnorm : dot e e = dot q q) : dot q e < dot q q := by
  have hqe : q ≠ e := fun h => hne h.symm
  have hpos : 0 < sqDist q e := by
    rcases lt_or_eq_of_le (sqDist_nonneg q e) with h | h
    · exact h
    · exact absurd (eq_of_sqDist_eq_zero hlen.symm h.symm) hqe
  have hpol := sqDist_polarization (v := q) (w := e) hlen.symm
  rw [hpol, hnorm] at hpos
  linarith

theorem one_div_one_add_le_one {d : ℚ} (hd : 0 ≤ d) : 1 / (1 + d) ≤ 1 := by
  rw [div_le_one (by linarith)]
  linarith

/-! ### Sorting and search-path lemmas -/

/-- The head of the ascending sort is the element with strictly minimal
key (when one exists). -/
theorem insertionSort_head?_of_strict_min {l : List (Nat × ℚ)} {x : Nat × ℚ}
    (hx : x ∈ l) (hmin : ∀ y ∈ l, y ≠ x → x.2 < y.2) :
    (List.insertionSort distLE l).head? = some x := by
  have hsorted := List.sorted_insertionSort distLE l
  have hperm := List.perm_insertionSort distLE l
  cases h : List.insertionSort distLE l with
  | nil =>
    have hmem : x ∈ List.insertionSort distLE l := by
      rw [List.mem_insertionSort]; exact hx
    rw [h] at hmem
    exact absurd hmem (List.not_mem_nil x)
  | cons b t =>
    rw [h] at hsorted hperm
    have hb : b ∈ l := hperm.mem_iff.mp (List.mem_cons_self b t)
    by_cases hbx : b = x
    · rw [hbx]; rfl
    · have hxbt : x ∈ b :: t := hperm.mem_iff.mpr hx
      have hxt : x ∈ t := by
        rcases List.mem_cons.mp hxbt with h1 | h1
        · exact absurd h1.symm hbx
        · exact h1
      have hle : b.2 ≤ x.2 := List.rel_of_sorted_cons hsorted x hxt
      have hlt : x.2 < b.2 := hmin b hb hbx
      exact absurd hle (not_le.mpr hlt)

/-- The head of the descending sort is the element with strictly maximal
key (when one exists). -/
theorem insertionSort_head?_of_strict_max {l : List (Nat × ℚ)} {x : Nat × ℚ}
    (hx : x ∈ l) (hmax : ∀ y ∈ l, y ≠ x → y.2 < x.2) :
    (List.insertionSort scoreGE l).head? = some x := by
  have hsorted := List.sorted_insertionSort scoreGE l
  have hperm := List.perm_insertionSort scoreGE l
  cases h : List.insertionSort scoreGE l with
  | nil =>
    have hmem : x ∈ List.insertionSort scoreGE l := by
      rw [List.mem_insertionSort]; exact hx
    rw [h] at hmem
    exact absurd hmem (List.not_mem_nil x)
  | cons b t =>
    rw [h] at hsorted hperm
    have hb : b ∈ l := hperm.mem_iff.mp (List.mem_cons_self b t)
    by_cases hbx : b = x
    · rw [hbx]; rfl
    · have hxbt : x ∈ b :: t := hperm.mem_iff.mpr hx
      have hxt : x ∈ t := by
        rcases List.mem_cons.mp hxbt with h1 | h1
        · exact absurd h1.symm hbx
        · exact h1
      have hle : x.2 ≤ b.2 := List.rel_of_sorted_cons hsorted x hxt
      have hlt : b.2 < x.2 := hmax b hb hbx
      exact absurd hle (not_le.mpr hlt)

/-- Every hit of the FAISS branch carries similarity
`1 / (1 + squared distance)` to its stored embedding. -/
theorem mem_searchFaiss {db : VectorDB} {q : List ℚ} {topK : Nat}
    {filter : Option String} {r : SearchResult}
    (hr : r ∈ searchFaiss db q topK filter) :
    ∃ e, db.embeddings[r.id]? = some e ∧ r.similarity = 1 / (1 + sqDist q e) := by
  unfold searchFaiss at hr
  have hr1 := (List.take_sublist _ _).mem hr
  rw [List.mem_filterMap] at hr1
  obtain ⟨p, hpmem, hpr⟩ := hr1
  have hp2 : p ∈ List.insertionSort distLE (db.embeddings.enum.map (fun p => (p.1, sqDist q p.2))) :=
    (List.take_sublist _ _).mem hpmem
  rw [List.mem_insertionSort, List.mem_map] at hp2
  obtain ⟨a, hamem, hap⟩ := hp2
  have ha : db.embeddings[a.1]? = some a.2 := by
    have := List.mem_enum_iff_getElem?.mp (show (a.1, a.2) ∈ db.embeddings.enum from hamem)
    simpa using this
  split at hpr
  · split at hpr
    · injection hpr with hpr
      subst hpr
      exact ⟨a.2, by simpa [← hap] using ha, by rw [← hap]⟩
    · exact absurd hpr (by simp)
  · exact absurd hpr (by simp)

/-- Every hit of the fallback branch carries similarity
`max 0 (dot q e)` to its stored embedding. -/
theorem mem_simpleSearch {db : VectorDB} {q : List ℚ} {topK : Nat}
    {filter : Option String} {r : SearchResult}
    (hr : r ∈ simpleSearch db q topK filter) :
    ∃ e, db.embeddings[r.id]? = some e ∧ r.similarity = max 0 (dot q e) := by
  unfold simpleSearch at hr
  rw [List.mem_map] at hr
  obtain ⟨p, hpmem, hpr⟩ := hr
  have hp2 : p ∈ List.insertionSort scoreGE (db.embeddings.enum.filterMap (fun p =>
      match db.metadata[p.1]? with
      | some m => if matchesFilter filter m.docType then some (p.1, dot q p.2) else none
      | none => none)) :=
    (List.take_sublist _ _).mem hpmem
  rw [List.mem_insertionSort, List.mem_filterMap] at hp2
  obtain ⟨a, hamem, hap⟩ := hp2
  have ha : db.embeddings[a.1]? = some a.2 := by
    have := List.mem_enum_iff_getElem?.mp (show (a.1, a.2) ∈ db.embeddings.enum from hamem)
    simpa using this
  split at hap
  · split at hap
    · injection hap with hap
      subst hap
      subst hpr
      exact ⟨a.2, by simpa using ha, rfl⟩
    · exact absurd hap (by simp)
  · exact absurd hap (by simp)

/-- C6: for an index of at least two documents with distinct content
(formalized at embedding level: stored embeddings differ from the new
text's embedding, have its length, and the engine's vectors share one
self-dot, as L2-normalized embeddings do), `add_document(text)` followed
immediately by `search` with that exact text as query returns the new
document as the first (hence top-ranked) result, with similarity at
least the similarity the engine would report for every other stored
document — in both the FAISS branch and the fallback branch. -/
theorem add_then_search_top (embed : String → List ℚ) (db : VectorDB)
    (text docType source : String) (topK : Nat)
    (hwf : WellFormed embed db)
    (htwo : 2 ≤ db.documents.length)
    (hcontent : ∀ d ∈ db.documents, d ≠ text)
    (hembNe : ∀ d ∈ db.documents, embed d ≠ embed text)
    (hembLen : ∀ d ∈ db.documents, (embed d).length = (embed text).length)
    (hembNorm : ∀ d ∈ db.documents, dot (embed d) (embed d) = dot (embed text) (embed text))
    (htopK : 1 ≤ topK) :
    ∃ r, (search embed (addDocument embed db text docType source) text topK none).head? = some r ∧
      r.id = db.documents.length ∧
      (∀ r' ∈ search embed (addDocument embed db text docType source) text topK none,
        r'.similarity ≤ r.similarity) ∧
      (∀ (i : Nat) (e : List ℚ),
        (addDocument embed db text docType source).embeddings[i]? = some e →
        reportedSimilarity (addDocument embed db text docType source) (embed text) e
          ≤ r.similarity) := by
  obtain ⟨hembEq, hmetaLen⟩ := hwf
  set q := embed text with hqdef
  set db' := addDocument embed db text docType source with hdb'
  set n := db.documents.length with hn
  have hlenEmb : db.embeddings.length = n := by rw [hembEq]; simp
  have hdb'Emb : db'.embeddings = db.embeddings ++ [q] := rfl
  have hdb'Meta : db'.metadata = db.metadata ++ [⟨n, docType, source⟩] := rfl
  have hdb'Docs : db'.documents = db.documents ++ [text] := rfl
  have hdb'Faiss : db'.useFaiss = db.useFaiss := rfl
  have hNotEmpty : db'.embeddings.isEmpty = false := by
    rw [hdb'Emb]
    rcases db.embeddings with _ | _ <;> simp
  have hq_at : db'.embeddings[n]? = some q := by
    rw [hdb'Emb, ← hlenEmb]
    exact List.getElem?_concat_length _ _
  have hmeta_at : db'.metadata[n]? = some ⟨n, docType, source⟩ := by
    have h : db.metadata.length = n := hmetaLen
    rw [hdb'Meta, ← h]
    exact List.getElem?_concat_length _ _
  have hdocs_at : db'.documents[n]? = some text := by
    rw [hdb'Docs, hn]
    exact List.getElem?_concat_length _ _
  have hstored : ∀ i e, db'.embeddings[i]? = some e → i ≠ n →
      e ≠ q ∧ e.length = q.length ∧ dot e e = dot q q := by
    intro i e hie hne
    rw [hdb'Emb] at hie
    have hilen : i < db.embeddings.length + 1 := by
      have := (List.getElem?_eq_some.mp hie).1
      simpa using this
    have hi : i < db.embeddings.length := by omega
    rw [List.getElem?_append_left hi] at hie
    have hmem : e ∈ db.embeddings := List.getElem?_mem hie
    rw [hembEq] at hmem
    obtain ⟨d, hd, rfl⟩ := List.mem_map.mp hmem
    exact ⟨hembNe d hd, hembLen d hd, hembNorm d hd⟩
  have hsqpos : ∀ i e, db'.embeddings[i]? = some e → i ≠ n → 0 < sqDist q e := by
    intro i e hie hne
    obtain ⟨hneq, hlen', -⟩ := hstored i e hie hne
    rcases lt_or_eq_of_le (sqDist_nonneg q e) with h | h
    · exact h
    · exact absurd (eq_of_sqDist_eq_zero hlen'.symm h.symm).symm hneq
  have hdotlt : ∀ i e, db'.embeddings[i]? = some e → i ≠ n → dot q e < dot q q := by
    intro i e hie hne
    obtain ⟨hneq, hlen', hnorm'⟩ := hstored i e hie hne
    exact dot_lt_dot_self_of_ne hlen' hneq hnorm'
  have htopK2 : topK ≠ 0 := by omega
  rcases hf : db.useFaiss with _ | _
  · -- fallback branch: `_simple_search`
    have hsearch : search embed db' text topK none = simpleSearch db' q topK none := by
      unfold search
      rw [hNotEmpty, hdb'Faiss, hf]
      simp
    set scores := db'.embeddings.enum.filterMap (fun p =>
      match db'.metadata[p.1]? with
      | some m => if matchesFilter none m.docType then some (p.1, dot q p.2) else none
      | none => none) with hscores
    have hx_mem : (n, dot q q) ∈ scores := by
      rw [hscores, List.mem_filterMap]
      refine ⟨(n, q), List.mem_enum_iff_getElem?.mpr (by simpa using hq_at), ?_⟩
      rw [hmeta_at]
      simp [matchesFilter]
    have hx_max : ∀ y ∈ scores, y ≠ (n, dot q q) → y.2 < dot q q := by
      intro y hy hne
      rw [hscores, List.mem_filterMap] at hy
      obtain ⟨a, hamem, hay⟩ := hy
      have ha : db'.embeddings[a.1]? = some a.2 := by
        have := List.mem_enum_iff_getElem?.mp (show (a.1, a.2) ∈ db'.embeddings.enum from hamem)
        simpa using this
      have hy_eq : y = (a.1, dot q a.2) := by
        split at hay
        · split at hay
          · exact (Option.some_inj.mp hay).symm
          · exact absurd hay (by simp)
        · exact absurd hay (by simp)
      by_cases hi : a.1 = n
      · rw [hi] at ha
        have : a.2 = q := Option.some_inj.mp (ha.symm.trans hq_at)
        rw [hy_eq, hi, this] at hne
        exact absurd rfl hne
      · rw [hy_eq]
        exact hdotlt a.1 a.2 ha hi
    have hsorted_head : (List.insertionSort scoreGE scores).head? = some (n, dot q q) :=
      insertionSort_head?_of_strict_max hx_mem hx_max
    have hsel : ∃ rest, List.take topK (List.insertionSort scoreGE scores) =
        (n, dot q q) :: rest := by
      cases hcase : List.take topK (List.insertionSort scoreGE scores) with
      | nil =>
        have := List.head?_take (l := List.insertionSort scoreGE scores) (n := topK)
        rw [hcase, if_neg htopK2, hsorted_head] at this
        exact absurd this (by simp)
      | cons c rest =>
        have := List.head?_take (l := List.insertionSort scoreGE scores) (n := topK)
        rw [hcase, if_neg htopK2, hsorted_head] at this
        have hc : c = (n, dot q q) := by
          simpa using this
        exact ⟨rest, by rw [hc]⟩
    obtain ⟨rest, hrest⟩ := hsel
    have hres0 : simpleSearch db' q topK none =
        (List.take topK (List.insertionSort scoreGE scores)).map
          (fun p => (⟨p.1, (db'.documents[p.1]?).getD "", max 0 p.2⟩ : SearchResult)) := rfl
    have hres_eq : simpleSearch db' q topK none =
        (⟨n, text, max 0 (dot q q)⟩ : SearchResult) ::
          rest.map (fun p => ⟨p.1, (db'.documents[p.1]?).getD "", max 0 p.2⟩) := by
      rw [hres0, hrest]
      simp [hdocs_at]
    refine ⟨⟨n, text, max 0 (dot q q)⟩, ?_, rfl, ?_, ?_⟩
    · rw [hsearch, hres_eq]; rfl
    · intro r' hr'
      rw [hsearch] at hr'
      obtain ⟨e, he, hsim⟩ := mem_simpleSearch hr'
      rw [hsim]
      by_cases hi : r'.id = n
      · rw [hi] at he
        have : e = q := Option.some_inj.mp (he.symm.trans hq_at)
        rw [this]
      · exact max_le_max le_rfl (hdotlt r'.id e he hi).le
    · intro i e hie
      unfold reportedSimilarity
      rw [hdb'Faiss, hf]
      simp only [Bool.false_eq_true, if_false]
      by_cases hi : i = n
      · rw [hi] at hie
        have : e = q := Option.some_inj.mp (hie.symm.trans hq_at)
        rw [this]
      · exact max_le_max le_rfl (hdotlt i e hie hi).le
  · -- FAISS branch
    have hsearch : search embed db' text topK none = searchFaiss db' q topK none := by
      unfold search
      rw [hNotEmpty, hdb'Faiss, hf]
      simp
    set pairs := db'.embeddings.enum.map (fun p => (p.1, sqDist q p.2)) with hpairs
    have hx_mem : (n, (0:ℚ)) ∈ pairs := by
      rw [hpairs, List.mem_map]
      exact ⟨(n, q), List.mem_enum_iff_getElem?.mpr (by simpa using hq_at),
        by simp [sqDist_self]⟩
    have hx_min : ∀ y ∈ pairs, y ≠ (n, (0:ℚ)) → (0:ℚ) < y.2 := by
      intro y hy hne
      rw [hpairs, List.mem_map] at hy
      obtain ⟨a, hamem, rfl⟩ := hy
      have ha : db'.embeddings[a.1]? = some a.2 := by
        have := List.mem_enum_iff_getElem?.mp (show (a.1, a.2) ∈ db'.embeddings.enum from hamem)
        simpa using this
      by_cases hi : a.1 = n
      · rw [hi] at ha
        have haq : a.2 = q := Option.some_inj.mp (ha.symm.trans hq_at)
        rw [hi, haq] at hne ⊢
        exact absurd (by simp [sqDist_self]) hne
      · exact hsqpos a.1 a.2 ha hi
    have hsorted_head : (List.insertionSort distLE pairs).head? = some (n, (0:ℚ)) :=
      insertionSort_head?_of_strict_min hx_mem hx_min
    have hkne : min (topK * 2) db'.embeddings.length ≠ 0 := by
      rw [hdb'Emb]
      simp only [List.length_append, List.length_singleton]
      omega
    have hsel : ∃ rest, List.take (min (topK * 2) db'.embeddings.length)
        (List.insertionSort distLE pairs) = (n, (0:ℚ)) :: rest := by
      cases hcase : List.take (min (topK * 2) db'.embeddings.length)
          (List.insertionSort distLE pairs) with
      | nil =>
        have := List.head?_take (l := List.insertionSort distLE pairs)
          (n := min (topK * 2) db'.embeddings.length)
        rw [hcase, if_neg hkne, hsorted_head] at this
        exact absurd this (by simp)
      | cons c rest =>
        have := List.head?_take (l := List.insertionSort distLE pairs)
          (n := min (topK * 2) db'.embeddings.length)
        rw [hcase, if_neg hkne, hsorted_head] at this
        have hc : c = (n, (0:ℚ)) := by
          simpa using this
        exact ⟨rest, by rw [hc]⟩
    obtain ⟨rest, hrest⟩ := hsel
    have hres_eq : searchFaiss db' q topK none =
        List.take topK ((⟨n, text, 1 / (1 + (0:ℚ))⟩ : SearchResult) ::
          rest.filterMap (fun p =>
            match db'.metadata[p.1]? with
            | some m =>
                if matchesFilter none m.docType then
                  some ⟨p.1, (db'.documents[p.1]?).getD "", 1 / (1 + p.2)⟩
                else none
            | none => none)) := by
      have hres0 : searchFaiss db' q topK none =
          List.take topK ((List.take (min (topK * 2) db'.embeddings.length)
            (List.insertionSort distLE pairs)).filterMap (fun p =>
              match db'.metadata[p.1]? with
              | some m =>
                  if matchesFilter none m.docType then
                    some ⟨p.1, (db'.documents[p.1]?).getD "", 1 / (1 + p.2)⟩
                  else none
              | none => none)) := rfl
      rw [hres0, hrest]
      simp [hmeta_at, hdocs_at, matchesFilter]
    have hres_head : (searchFaiss db' q topK none).head? =
        some (⟨n, text, 1 / (1 + (0:ℚ))⟩ : SearchResult) := by
      rw [hres_eq, List.head?_take, if_neg htopK2]
      rfl
    refine ⟨⟨n, text, 1 / (1 + (0:ℚ))⟩, ?_, rfl, ?_, ?_⟩
    · rw [hsearch]; exact hres_head
    · intro r' hr'
      rw [hsearch] at hr'
      obtain ⟨e, he, hsim⟩ := mem_searchFaiss hr'
      rw [hsim]
      have h1 : (1:ℚ) / (1 + 0) = 1 := by norm_num
      show (1:ℚ) / (1 + sqDist q e) ≤ 1 / (1 + 0)
      rw [h1]
      exact one_div_one_add_le_one (sqDist_nonneg q e)
    · intro i e hie
      unfold reportedSimilarity
      rw [hdb'Faiss, hf]
      simp only [if_true]
      show (1:ℚ) / (1 + sqDist q e) ≤ 1 / (1 + 0)
      have h1 : (1:ℚ) / (1 + 0) = 1 := by norm_num
      rw [h1]
      exact one_div_one_add_le_one (sqDist_nonneg q e)

/-- Witness for C6 at a concrete two-document index with FAISS: add a
third document `"c"` with a fresh unit embedding and query with the same
text. -/
theorem add_then_search_top_witness :
    ∃ r, (search embedW (addDocument embedW dbW "c" "medical" "") "c" 5 none).head? = some r ∧
      r.id = dbW.documents.length ∧
      (∀ r' ∈ search embedW (addDocument embedW dbW "c" "medical" "") "c" 5 none,
        r'.similarity ≤ r.similarity) ∧
      (∀ (i : Nat) (e : List ℚ),
        (addDocument embedW dbW "c" "medical" "").embeddings[i]? = some e →
        reportedSimilarity (addDocument embedW dbW "c" "medical" "") (embedW "c") e
          ≤ r.similarity) :=
  add_then_search_top embedW dbW "c" "medical" "" 5
    (by exact ⟨by simp [dbW, embedW, addDocument, VectorDB.empty],
      by simp [dbW, addDocument, VectorDB.empty]⟩)
    (by simp [dbW, addDocument, VectorDB.empty])
    (by intro d hd; simp [dbW, addDocument, VectorDB.empty] at hd
        rcases hd with rfl | rfl <;> simp)
    (by intro d hd; simp [dbW, addDocument, VectorDB.empty] at hd
        rcases hd with rfl | rfl <;> simp [embedW] <;> norm_num)
    (by intro d hd; simp [dbW, addDocument, VectorDB.empty] at hd
        rcases hd with rfl | rfl <;> simp [embedW])
    (by intro d hd; simp [dbW, addDocument, VectorDB.empty] at hd
        rcases hd with rfl | rfl <;> simp [embedW, dot] <;> norm_num)
    (by norm_num)

/-- C7 counterexample: in the fallback branch the stored document `"d"`
(embedding `[0, 1]`) is returned for a query embedding `[1, 0]` with
similarity `max(0, dot) = 0`, while `1 / (1 + d)` for the Euclidean
distance `d = √2` between the two embeddings is positive — the reported
score is not `1 / (1 + distance)`. -/
theorem search_similarity_counterexample :
    search embedX dbX "q" 5 none = [⟨0, "d", 0⟩] ∧
    ((sqDist (embedX "q") [0, 1] : ℚ) : ℝ) = Real.sqrt 2 ^ 2 ∧
    (1 : ℝ) / (1 + Real.sqrt 2) ≠ ((0 : ℚ) : ℝ) := by
  refine ⟨?_, ?_, ?_⟩
  · simp [search, simpleSearch, dbX, embedX, dot, matchesFilter, List.insertionSort,
      List.orderedInsert]
  · have h2 : sqDist (embedX "q") [0, 1] = 2 := by
      simp [sqDist, embedX]
      norm_num
    rw [h2, Real.sq_sqrt (by norm_num : (0:ℝ) ≤ 2)]
    norm_num
  · have hpos : (0:ℝ) < 1 / (1 + Real.sqrt 2) := by positivity
    push_cast
    linarith

/-- C7 (amended): every result of `VectorDatabase.search` reports, for
its stored embedding `e`, the similarity `1 / (1 + d)` where `d` is the
squared L2 distance reported by the FAISS index when the FAISS branch
runs, and `max(0, dot(query, e))` in the fallback branch. -/
theorem search_similarity_formula (embed : String → List ℚ) (db : VectorDB)
    (query : String) (topK : Nat) (filter : Option String) (r : SearchResult)
    (hr : r ∈ search embed db query topK filter) :
    ∃ e, db.embeddings[r.id]? = some e ∧
      r.similarity = if db.useFaiss then 1 / (1 + sqDist (embed query) e)
        else max 0 (dot (embed query) e) := by
  unfold search at hr
  by_cases hemp : db.embeddings.isEmpty
  · rw [if_pos hemp] at hr
    exact absurd hr (List.not_mem_nil r)
  · rw [if_neg hemp] at hr
    by_cases hf : db.useFaiss = true
    · rw [if_pos hf] at hr
      obtain ⟨e, he, hs⟩ := mem_searchFaiss hr
      exact ⟨e, he, by rw [if_pos hf]; exact hs⟩
    · rw [if_neg hf] at hr
      obtain ⟨e, he, hs⟩ := mem_simpleSearch hr
      exact ⟨e, he, by rw [if_neg hf]; exact hs⟩

/-- Witness for the amended C7 at the concrete fallback-branch index. -/
theorem search_similarity_formula_witness :
    ∃ e, dbX.embeddings[(SearchResult.mk 0 "d" 0).id]? = some e ∧
      (SearchResult.mk 0 "d" 0).similarity =
        if dbX.useFaiss then 1 / (1 + sqDist (embedX "q") e)
        else max 0 (dot (embedX "q") e) :=
  search_similarity_formula embedX dbX "q" 5 none ⟨0, "d", 0⟩
    (by simp [search, simpleSearch, dbX, embedX, dot, matchesFilter,
      List.insertionSort, List.orderedInsert])

/-! ### Theorems on translation (C4, C5) -/

/-- C4 counterexample: the ai_engine translator checks initialization
before the equal-language shortcut, so when the model fails to load,
`translate(text, L, L)` returns `None`, not the text — the claimed
unconditional identity fails. -/
theorem ai_translate_identity_counterexample :
    aiTranslate ⟨false, false⟩ genFail "hello" "english" "english" = none ∧
    (none : Option String) ≠ some "hello" := by
  exact ⟨rfl, by simp⟩

/-- C4 (amended): the accessibility-service translator returns the text
unchanged whenever source and target are equal, for every language and
every model state; the ai_engine translator does so only when it is
initialized (or initialization would succeed) and the language is in
`LANGUAGE_CODES` — otherwise it returns `None`. -/
theorem translate_same_language (st : AccTranslator)
    (indicModel genModel : String → String → String → Except String String)
    (st2 : AiTranslator) (text lang : String) :
    accTranslate st indicModel text lang lang = text ∧
    ((st2.initialized = true ∨ st2.initSucceeds = true) →
      (aiLangCode lang).isSome →
      aiTranslate st2 genModel text lang lang = some text) := by
  constructor
  · unfold accTranslate
    rw [if_pos rfl]
  · intro hinit hcode
    unfold aiTranslate
    have hcond : ¬ (¬ st2.initialized ∧ ¬ st2.initSucceeds) := by
      rcases hinit with h | h <;> simp [h]
    rw [if_neg hcond]
    obtain ⟨c, hc⟩ := Option.isSome_iff_exists.mp hcode
    rw [hc]
    simp

/-- Witness for the amended C4: identity holds concretely on both
translators when their preconditions hold. -/
theorem translate_same_language_witness :
    accTranslate ⟨false⟩ genFail "hello" "en" "en" = "hello" ∧
    aiTranslate ⟨true, false⟩ genFail "नमस्ते" "english" "english" = some "नमस्ते" :=
  ⟨(translate_same_language ⟨false⟩ genFail genFail ⟨true, false⟩ "hello" "en").1,
   (translate_same_language ⟨false⟩ genFail genFail ⟨true, false⟩ "नमस्ते" "english").2
     (Or.inl rfl) (by decide)⟩

/-- C5 counterexample: with the model unavailable, the accessibility
translator's `(en, hi)` fallback substitutes vocabulary, so the result
is not the original text; and the ai_engine translator returns `None`
(not a string) on an unsupported target language. -/
theorem translate_unavailable_counterexample :
    accTranslate ⟨false⟩ genFail "patient" "en" "hi" = "रोगी" ∧
    ("रोगी" : String) ≠ "patient" ∧
    aiTranslate ⟨true, true⟩ genFail "patient" "english" "german" = none ∧
    (none : Option String) ≠ some "patient" := by
  refine ⟨by decide, by decide, by decide, by simp⟩

/-- C5 (amended): an unsupported target language makes the
accessibility translate return the original text (and the ai_engine
translate return `None`); an unavailable model makes the accessibility
translate return the `_fallback_translate` result — always a string,
never an exception, but not necessarily the original text (vocabulary
substitution for the `(en, hi)` / `(en, ta)` pairs). -/
theorem translate_degraded_modes (st : AccTranslator)
    (indicModel genModel : String → String → String → Except String String)
    (st2 : AiTranslator) (text srcLang tgtLang : String) :
    (tgtLang ∉ SUPPORTED_LANGUAGES →
      accTranslate st indicModel text srcLang tgtLang = text) ∧
    (st.modelLoaded = false → srcLang ≠ tgtLang →
      srcLang ∈ SUPPORTED_LANGUAGES → tgtLang ∈ SUPPORTED_LANGUAGES →
      accTranslate st indicModel text srcLang tgtLang =
        fallbackTranslate text srcLang tgtLang) ∧
    (aiLangCode tgtLang = none →
      aiTranslate st2 genModel text srcLang tgtLang = none) := by
  refine ⟨?_, ?_, ?_⟩
  · intro hns
    unfold accTranslate
    by_cases h1 : srcLang = tgtLang
    · rw [if_pos h1]
    · rw [if_neg h1]
      by_cases h2 : srcLang ∉ SUPPORTED_LANGUAGES
      · rw [if_pos h2]
      · rw [if_neg h2, if_pos hns]
  · intro hml hne hs ht
    unfold accTranslate
    rw [if_neg hne, if_neg (by simpa using hs), if_neg (by simpa using ht)]
    rw [hml]
    simp
  · intro hcode
    unfold aiTranslate
    by_cases hinit : ¬ st2.initialized ∧ ¬ st2.initSucceeds
    · rw [if_pos hinit]
    · rw [if_neg hinit, hcode]
      rcases aiLangCode srcLang with _ | c <;> simp

/-- Witness for the amended C5: all three degraded modes at concrete
inputs. -/
theorem translate_degraded_modes_witness :
    accTranslate ⟨true⟩ genFail "hello" "en" "xx" = "hello" ∧
    accTranslate ⟨false⟩ genFail "fever" "en" "ta" = fallbackTranslate "fever" "en" "ta" ∧
    aiTranslate ⟨true, true⟩ genFail "hello" "english" "xx" = none :=
  ⟨(translate_degraded_modes ⟨true⟩ genFail genFail ⟨true, true⟩ "hello" "en" "xx").1
     (by decide),
   (translate_degraded_modes ⟨false⟩ genFail genFail ⟨true, true⟩ "fever" "en" "ta").2.1
     rfl (by decide) (by decide) (by decide),
   (translate_degraded_modes ⟨false⟩ genFail genFail ⟨true, true⟩ "hello" "english" "xx").2.2
     (by decide)⟩

/-! ### Theorems on the risk predictor (C10) -/

theorem confidence_eq_max (s : ℚ) :
    (if (0.5:ℚ) < s then s else 1 - s) = max s (1 - s) := by
  by_cases h : (0.5:ℚ) < s
  · rw [if_pos h, max_eq_left (by linarith)]
  · rw [if_neg h, max_eq_right (by linarith)]

theorem npClip01_nonneg (x : ℚ) : 0 ≤ npClip x 0 1 :=
  le_max_left 0 _

theorem npClip01_le_one (x : ℚ) : npClip x 0 1 ≤ 1 :=
  max_le (by norm_num) (min_le_right _ _)

theorem fallback_risk_contract (pd : List (String × ℚ)) :
    0 ≤ (fallback_risk pd).riskScore ∧ (fallback_risk pd).riskScore ≤ 1 ∧
    (fallback_risk pd).riskLevel = classify_risk (fallback_risk pd).riskScore ∧
    (fallback_risk pd).confidence =
      max (fallback_risk pd).riskScore (1 - (fallback_risk pd).riskScore) :=
  ⟨npClip01_nonneg _, npClip01_le_one _, rfl, confidence_eq_max _⟩

/-- C10: `predict_risk` is total over numeric patient dictionaries
(every exception from the model path lands in `_fallback_risk`), and on
every path the returned `risk_score` lies in `[0, 1]`, `risk_level` is
`_classify_risk(risk_score)` with the fixed thresholds, and
`confidence` equals `max(risk_score, 1 - risk_score)`. -/
theorem predict_risk_contract (modelPredict : List ℚ → Except String ℚ)
    (importOracle : Except String (List RiskFactor)) (pd : List (String × ℚ)) :
    0 ≤ (predict_risk modelPredict importOracle pd).riskScore ∧
    (predict_risk modelPredict importOracle pd).riskScore ≤ 1 ∧
    (predict_risk modelPredict importOracle pd).riskLevel =
      classify_risk (predict_risk modelPredict importOracle pd).riskScore ∧
    (predict_risk modelPredict importOracle pd).confidence =
      max (predict_risk modelPredict importOracle pd).riskScore
        (1 - (predict_risk modelPredict importOracle pd).riskScore) ∧
    (∀ e, modelPredict (prepare_features pd) = Except.error e →
      predict_risk modelPredict importOracle pd = fallback_risk pd) := by
  cases h : modelPredict (prepare_features pd) with
  | ok raw =>
    have hpr : predict_risk modelPredict importOracle pd =
        { riskScore := npClip raw 0 1
          riskLevel := classify_risk (npClip raw 0 1)
          topRiskFactors := get_feature_importance importOracle
          confidence := if 0.5 < npClip raw 0 1 then npClip raw 0 1 else 1 - npClip raw 0 1
          fallbackMethod := false } := by
      unfold predict_risk
      rw [h]
    rw [hpr]
    refine ⟨npClip01_nonneg _, npClip01_le_one _, rfl, confidence_eq_max _, ?_⟩
    intro e he
    exact absurd he (by simp)
  | error e0 =>
    have hpr : predict_risk modelPredict importOracle pd = fallback_risk pd := by
      unfold predict_risk
      rw [h]
    rw [hpr]
    obtain ⟨a, b, c, d⟩ := fallback_risk_contract pd
    exact ⟨a, b, c, d, fun _ _ => rfl⟩

/-- Witness for C10: a never-fitted model falls back to rule-based
scoring on a concrete partially-populated dictionary. -/
theorem predict_risk_contract_witness :
    predict_risk failPredict noImport pdElderly = fallback_risk pdElderly :=
  (predict_risk_contract failPredict noImport pdElderly).2.2.2.2 "model not fitted" rfl

/-! ### Theorems on the orchestrator (C3) -/

/-- C3 counterexample: with every stage up to the risk prediction
succeeding and the narrative stage raising, `process_document` returns
the bare `{'status': 'error', ...}` dictionary, which carries no risk
prediction. -/
theorem process_document_discards_prediction :
    processDocument oraclesC3 "Patient reports chest pain" "ehr" "p1" "en" =
      PDResponse.error "LLM unavailable" "p1" ∧
    (processDocument oraclesC3 "Patient reports chest pain" "ehr" "p1"
      "en").riskPredictionField = none := by
  constructor <;> rfl

/-- C3 (amended): whenever the stages before the narrative stage
succeed and the narrative stage raises, `process_document` returns
`{'status': 'error', 'error': msg, 'patient_id': pid}` — a well-formed
response (the exception never propagates), but one that discards the
already-computed risk prediction rather than returning it with an error
sub-field. -/
theorem process_document_error_shape (o : StageOracles)
    (text docType pid : String) (n : Nat) (ex : Extracted) (rp : RiskPred) (msg : String)
    (h1 : o.addEhrDocument text pid docType = .ok n)
    (h2 : o.extractFromText text "en" = .ok ex)
    (h3 : o.predictRiskStage (o.prepare ex) = .ok rp)
    (h4 : o.generateExplanation rp.riskScore (rp.topRiskFactors.map (fun f => f.feature))
        (o.prepare ex) "en" = .error msg) :
    processDocument o text docType pid "en" = PDResponse.error msg pid ∧
    (processDocument o text docType pid "en").riskPredictionField = none := by
  have hE : processDocumentE o text docType pid "en" = .error msg := by
    unfold processDocumentE
    rw [if_neg (fun hcon => hcon rfl)]
    simp only [bind, Except.bind, pure, Except.pure, h1, h2, h3, h4]
  constructor
  · unfold processDocument
    rw [hE]
  · unfold processDocument
    rw [hE]
    rfl

/-- Witness for the amended C3 at concrete oracles. -/
theorem process_document_error_shape_witness :
    processDocument oraclesC3 "doc" "ehr" "p2" "en" =
      PDResponse.error "LLM unavailable" "p2" ∧
    (processDocument oraclesC3 "doc" "ehr" "p2" "en").riskPredictionField = none :=
  process_document_error_shape oraclesC3 "doc" "ehr" "p2" 3 [("note", "chest pain")]
    ⟨0.8, "CRITICAL", [⟨"age", 0.3⟩], 0.8, false⟩ "LLM unavailable" rfl rfl rfl rfl

/-! ### Theorems on explainability (C8) and preprocessing (C9) -/

/-- C8 counterexample: when the model file exists but `joblib.load`
raises inside the lazy `load_explainer`, `explain_prediction`
propagates the exception instead of returning the empty result. -/
theorem explain_prediction_raises_counterexample :
    explain_prediction envC8 shapFail freshExplainer [[1, 0]] 5 =
      Except.error "joblib load failed" ∧
    (Except.error "joblib load failed" : Except String (Option (List RiskFactor))) ≠
      Except.ok none := by
  exact ⟨rfl, by simp⟩

/-- C8 (amended): `explain_prediction` returns the empty result and
does not raise when the explainer is absent because the model file does
not exist, and when SHAP evaluation itself fails; but an exception
raised inside the lazy `load_explainer` (joblib load, explainer
construction, feature-name load) propagates to the caller. -/
theorem explain_prediction_degrades (env : ExplainerEnv)
    (shapOracle : List (List ℚ) → Except String ShapValues)
    (st : TriageExplainerState) (X : List (List ℚ)) (topK : Nat) :
    (env.modelFileExists = false → env.featureFileExists = false →
      explain_prediction env shapOracle freshExplainer X topK = .ok none) ∧
    (∀ u e, st.explainer = some u → shapOracle X = .error e →
      explain_prediction env shapOracle st X topK = .ok none) := by
  constructor
  · intro hmodel hfeat
    simp [explain_prediction, load_explainer, freshExplainer, hmodel, hfeat,
      pure, Except.pure, bind, Except.bind]
  · intro u e hst hsh
    have hne : ¬ st.explainer = none := by rw [hst]; simp
    unfold explain_prediction
    rw [if_neg hne]
    unfold explainCore
    rw [hsh]

/-- Witness for the amended C8: both graceful modes at concrete
environments. -/
theorem explain_prediction_degrades_witness :
    explain_prediction envAbsent shapFail freshExplainer [[1, 0]] 5 = .ok none ∧
    explain_prediction envAbsent shapFail loadedExplainer [[1, 0]] 5 = .ok none :=
  ⟨(explain_prediction_degrades envAbsent shapFail loadedExplainer [[1, 0]] 5).1 rfl rfl,
   (explain_prediction_degrades envAbsent shapFail loadedExplainer [[1, 0]] 5).2
     () "shap error" rfl rfl⟩

/-- C9 counterexample: calling `transform` before `fit` fails with
`AttributeError` (dereferencing `self.pipeline = None`), not with a
`ConfigurationError`; indeed no `ConfigurationError` class exists in
`core/exceptions.py`. -/
theorem transform_before_fit_counterexample :
    transform freshPreprocessor [("age", 50)] = Except.error PyExcKind.attributeError ∧
    PyExcKind.attributeError ≠ PyExcKind.configurationError ∧
    "ConfigurationError" ∉ coreExceptionClasses := by
  exact ⟨rfl, by decide, by decide⟩

/-- C9 (amended): for every input row, `transform` before `fit` fails
with Python's `AttributeError` — there is no dedicated
configuration-error type in the codebase to fail with. -/
theorem transform_before_fit_attribute_error (X : List (String × ℚ)) :
    transform freshPreprocessor X = Except.error PyExcKind.attributeError ∧
    "ConfigurationError" ∉ coreExceptionClasses := by
  exact ⟨rfl, by decide⟩

end KaniniSpec
